import Mathlib

/-!
Verification development for the thermal-printer transport and
image-to-printer-command encoder of the `converterlegacy` repository
(`src/lib/bluetoothPrinter.ts`, modelled from the revision that uses the
GS v 0 raster command, Floyd-Steinberg dithering and 200-byte chunking).

The TypeScript is shallowly embedded: byte arrays become `List Nat`
(values taken modulo 256 where the source masks with `& 0xff`), the
JavaScript number arithmetic of the dithering pass is modelled exactly over
`ℚ`, and the asynchronous control flow of the print orchestrator becomes an
explicit event trace with a fallible send oracle.
-/

namespace BtPrinter

/-! ## Command builder (`printImages`, raster command construction) -/

/-- `ESC` byte used by the printer control protocol. -/
def ESC : Nat := 0x1b

/-- `GS` byte used by the printer control protocol. -/
def GS : Nat := 0x1d

/-- `commands.INIT` — initialize printer. -/
def initCmd : List Nat := [ESC, 0x40]

/-- `[GS, 0x7c, 0x00, 0x32, 0x32]` — set print density. -/
def densityCmd : List Nat := [GS, 0x7c, 0x00, 0x32, 0x32]

/-- `[ESC, 0x33, 0x00]` — set line spacing to 0. -/
def lineSpacingCmd : List Nat := [ESC, 0x33, 0x00]

/-- `[0x0a, 0x0a, 0x0a]` — feed paper (three line feeds). -/
def feedCmd : List Nat := [0x0a, 0x0a, 0x0a]

/-- `[GS, 0x56, 0x00]` — cut paper. -/
def cutCmd : List Nat := [GS, 0x56, 0x00]

/-- The GS v 0 raster bit-image command built by `printImages`:
`[GS, 0x76, 0x30, 0x00, widthBytes & 0xff, (widthBytes >> 8) & 0xff,
height & 0xff, (height >> 8) & 0xff]` followed by every bitmap row in order.
`widthBytes` is `bitmap[0].length`, `height` is `bitmap.length`. -/
def rasterCommand (bitmap : List (List Nat)) : List Nat :=
  let widthBytes := (bitmap.headD []).length
  let height := bitmap.length
  [GS, 0x76, 0x30, 0x00,
    widthBytes % 256, widthBytes / 256 % 256,
    height % 256, height / 256 % 256]
    ++ bitmap.flatten

/-- The six printer commands `printImages` issues for one image, in order:
init, density, line spacing, raster transfer, feed, cut. -/
def imageCommands (bitmap : List (List Nat)) : List (List Nat) :=
  [initCmd, densityCmd, lineSpacingCmd, rasterCommand bitmap, feedCmd, cutCmd]

/-! ## Transport chunking (`sendCommand`) -/

/-- `maxChunkSize = 200` in `sendCommand`. -/
def maxChunkSize : Nat := 200

/-- The chunks written by `sendCommand`: a payload of at most 200 bytes is
written in a single write, a longer payload is sliced into consecutive
200-byte chunks (`data.slice(offset, offset + maxChunkSize)`). -/
def chunkBytes (data : List Nat) : List (List Nat) :=
  if data.length ≤ maxChunkSize then [data]
  else data.take maxChunkSize :: chunkBytes (data.drop maxChunkSize)
termination_by data.length
decreasing_by
  simp only [List.length_drop, maxChunkSize] at *
  omega

/-- Write acknowledgement mode chosen by `sendCommand`. -/
inductive WriteMode where
  | noAck
  | ack
deriving DecidableEq

/-- The sequence of characteristic writes performed by `sendCommand` for one
command payload: each chunk in order, with `writeValueWithoutResponse` when
the characteristic supports it and `writeValue` otherwise. -/
def sendWrites (writeWithoutResponse : Bool) (data : List Nat) :
    List (List Nat × WriteMode) :=
  (chunkBytes data).map
    (fun c => (c, if writeWithoutResponse then WriteMode.noAck else WriteMode.ack))

/-! ## Discovery (`connectToPrinter`) -/

/-- A GATT characteristic as seen by `connectToPrinter`: its UUID and its
`properties.write` / `properties.writeWithoutResponse` flags. -/
structure BtCharacteristic where
  uuid : String
  write : Bool
  writeWithoutResponse : Bool
deriving DecidableEq

/-- A GATT primary service: its UUID and its characteristics. -/
structure BtService where
  uuid : String
  characteristics : List BtCharacteristic
deriving DecidableEq

/-- A connected GATT server: the list returned by `getPrimaryServices()`. -/
structure BtServer where
  services : List BtService
deriving DecidableEq

/-- `commonServiceUUIDs` — the prioritized known printer service UUIDs. -/
def commonServiceUUIDs : List String :=
  ["000018f0-0000-1000-8000-00805f9b34fb",
   "49535343-fe7d-4ae5-8fa9-9fafd205e455",
   "0000fff0-0000-1000-8000-00805f9b34fb",
   "e7810a71-73ae-499d-8c15-faa9aef0c3f2"]

/-- `commonCharUUIDs` — the prioritized known writable characteristic UUIDs. -/
def commonCharUUIDs : List String :=
  ["00002af1-0000-1000-8000-00805f9b34fb",
   "49535343-8841-43f4-a8d4-ecbe34729bb3",
   "0000fff1-0000-1000-8000-00805f9b34fb",
   "bef8d6c9-9c21-4c9e-b632-bd58c1009f9f"]

/-- `server.getPrimaryService(uuid)`: the device's service with that UUID,
or failure (`none`) when the device does not expose it. -/
def getPrimaryService (srv : BtServer) (u : String) : Option BtService :=
  srv.services.find? (fun s => s.uuid == u)

/-- The service-selection loop of `connectToPrinter`: try each known UUID in
order, keep the first hit; if none match fall back to `services[0]`. -/
def selectService (srv : BtServer) : Option BtService :=
  match commonServiceUUIDs.findSome? (fun u => getPrimaryService srv u) with
  | some s => some s
  | none => srv.services.head?

/-- `service.getCharacteristic(uuid)`. -/
def getCharacteristic (s : BtService) (u : String) : Option BtCharacteristic :=
  s.characteristics.find? (fun c => c.uuid == u)

/-- `c.properties.write || c.properties.writeWithoutResponse`. -/
def isWritable (c : BtCharacteristic) : Bool :=
  c.write || c.writeWithoutResponse

/-- The characteristic-selection loop of `connectToPrinter`: try each known
characteristic UUID in order; if none match fall back to the first
characteristic exposing a write capability. -/
def selectCharacteristic (s : BtService) : Option BtCharacteristic :=
  match commonCharUUIDs.findSome? (fun u => getCharacteristic s u) with
  | some c => some c
  | none => s.characteristics.find? isWritable

/-- The three failure modes of `connectToPrinter` after a successful GATT
connection, in the order the source can raise them. -/
inductive ConnectError where
  | noServicesFound
  | noCompatibleService
  | noWritableCharacteristic
deriving DecidableEq

/-- `connectToPrinter` discovery logic: fail when zero services are exposed,
otherwise select a service (known UUIDs first, then `services[0]`), then a
characteristic (known UUIDs first, then first writable), failing when no
characteristic is selected. -/
def connectToPrinter (srv : BtServer) : Except ConnectError BtCharacteristic :=
  if srv.services.length = 0 then Except.error ConnectError.noServicesFound
  else
    match selectService srv with
    | none => Except.error ConnectError.noCompatibleService
    | some s =>
      match selectCharacteristic s with
      | none => Except.error ConnectError.noWritableCharacteristic
      | some c => Except.ok c

/-! ## Print orchestrator (`printImages`) as an event trace

`printImages` is sequential: every `sendCommand` is awaited before the next
one is issued.  The model therefore produces the totally ordered list of
observable events of a run.  Sends are numbered, and a `sendOracle` says
whether the k-th send fails (and with what message), modelling transport
write failures. -/

/-- Observable events of a `printImages` run: the connection attempt, each
command payload handed to `sendCommand`, and each `onProgress(current,total)`
callback. -/
inductive PrintEv where
  | connectAttempt : PrintEv
  | sent : List Nat → PrintEv
  | progress : Nat → Nat → PrintEv
deriving DecidableEq

/-- Outcome of the k-th `sendCommand` call: `none` = success,
`some msg` = the write rejects with an error whose message is `msg`. -/
def SendOracle : Type := Nat → Option String

/-- Send a list of commands in order, stopping at the first failure.
Returns the extended trace, the next send index, and the failure message if
one occurred. -/
def sendCmds (oracle : SendOracle) :
    List (List Nat) → List PrintEv → Nat → (List PrintEv × Nat) × Option String
  | [], tr, k => ((tr, k), none)
  | c :: rest, tr, k =>
    match oracle k with
    | some m => ((tr, k), some m)
    | none => sendCmds oracle rest (tr ++ [PrintEv.sent c]) (k + 1)

/-- The per-image loop of `printImages`: for each bitmap send its six
commands, then fire `onProgress(i+1, total)`; abort on the first failure. -/
def printLoop (oracle : SendOracle) (total : Nat) :
    List (List (List Nat)) → Nat → List PrintEv → Nat →
      (List PrintEv × Nat) × Option String
  | [], _, tr, k => ((tr, k), none)
  | bm :: rest, i, tr, k =>
    match sendCmds oracle (imageCommands bm) tr k with
    | ((tr2, k2), some m) => ((tr2, k2), some m)
    | ((tr2, k2), none) =>
      printLoop oracle total rest (i + 1)
        (tr2 ++ [PrintEv.progress (i + 1) total]) k2

/-- The error message thrown when no device is bound, before any connection
attempt. -/
def noPrinterMsg : String := "No printer connected. Please connect a printer first."

/-- The wrapping applied by the catch-all of `printImages`:
`new Error("Failed to print: " + message)`. -/
def wrapPrintError (m : String) : String := "Failed to print: " ++ m

/-- A run of `printImages`, parameterized by whether a device is bound
(`connectedDevice !== null`), the result of `connectToPrinter` (`none` =
success, `some m` = it throws with message `m`), the send oracle, and the
already-encoded bitmaps of the batch.  Returns the event trace and the
rejection message, if any, reaching the caller. -/
def printImagesRun (deviceBound : Bool) (connectErr : Option String)
    (oracle : SendOracle) (bitmaps : List (List (List Nat))) :
    List PrintEv × Option String :=
  if deviceBound = false then ([], some noPrinterMsg)
  else
    match connectErr with
    | some m => ([PrintEv.connectAttempt], some (wrapPrintError m))
    | none =>
      match printLoop oracle bitmaps.length bitmaps 0 [PrintEv.connectAttempt] 0 with
      | ((tr, _), some m) => (tr, some (wrapPrintError m))
      | ((tr, _), none) => (tr, none)

/-- The trace the spec predicts for a successful batch: for each image, its
six commands in order followed by its progress callback, images in batch
order with no interleaving. -/
def expectedBatchTrace (total : Nat) :
    List (List (List Nat)) → Nat → List PrintEv
  | [], _ => []
  | bm :: rest, i =>
    (imageCommands bm).map PrintEv.sent
      ++ [PrintEv.progress (i + 1) total]
      ++ expectedBatchTrace total rest (i + 1)

/-- A send oracle that never fails. -/
def noFailOracle : SendOracle := fun _ => none

/-- A send oracle whose n-th send (0-based) fails with message `m`, all
others succeed. -/
def failAt (n : Nat) (m : String) : SendOracle :=
  fun k => if k = n then some m else none

/-- Recognizes `onProgress` events in a trace. -/
def isProgressEv : PrintEv → Bool
  | PrintEv.progress _ _ => true
  | _ => false

/-- Recognizes command-send events in a trace. -/
def isSentEv : PrintEv → Bool
  | PrintEv.sent _ => true
  | _ => false

/-- The trace the spec predicts for a batch whose n-th send (0-based, six
commands per image) fails: every image fully sent before the failure
contributes its six commands and its progress callback; the image during
which the failure occurs contributes only its commands before the failing
one; nothing follows. -/
def expectedFailTrace (total : Nat) :
    List (List (List Nat)) → Nat → Nat → List PrintEv
  | [], _, _ => []
  | bm :: rest, i, n =>
    if 6 ≤ n then
      (imageCommands bm).map PrintEv.sent
        ++ [PrintEv.progress (i + 1) total]
        ++ expectedFailTrace total rest (i + 1) (n - 6)
    else
      ((imageCommands bm).take n).map PrintEv.sent

/-! ## Bitmap encoder (`imageToEscPosBitmap`)

The canvas readback pixels of the scaled image are modelled as a function
`pix : Nat → ℚ × ℚ × ℚ` giving the (R,G,B) channels at linear index
`i = y * width + x`; the JavaScript float arithmetic of the grayscale and
dithering passes is modelled exactly over `ℚ`. -/

/-- State of the dithering pass: the mutable `grayscale` array (as a
function on linear pixel indices) and the `dithered` array, recorded as
`true` at `i` exactly when `dithered[i] === 0` (ink). `Uint8Array` zero
initialization makes the initial dithered map constantly `true`; every
in-range cell is overwritten before it is read. -/
def DitherState : Type := (Nat → ℚ) × (Nat → Bool)

/-- Quantization error of one pixel: `oldPixel - newPixel` where
`newPixel = oldPixel < threshold ? 0 : 255`. -/
def quantErr (t v : ℚ) : ℚ := v - (if v < t then 0 else 255)

/-- The error-diffusion update of one Floyd-Steinberg step: distribute the
quantization error `e` of pixel `(x, y)` to the right, below-left, below
and below-right neighbors with weights 7/16, 3/16, 5/16, 1/16, guarded by
the image edges exactly as in the source (`x+1 < width`, `y+1 < height`,
`x > 0`; no wraparound). -/
def diffuseError (W H y x : Nat) (e : ℚ) (g : Nat → ℚ) : Nat → ℚ :=
  let idx := y * W + x
  let g1 := if x + 1 < W then
    Function.update g (idx + 1) (g (idx + 1) + e * 7 / 16) else g
  if y + 1 < H then
    let g2 := if 0 < x then
      Function.update g1 (idx + W - 1) (g1 (idx + W - 1) + e * 3 / 16) else g1
    let g3 := Function.update g2 (idx + W) (g2 (idx + W) + e * 5 / 16)
    if x + 1 < W then
      Function.update g3 (idx + W + 1) (g3 (idx + W + 1) + e * 1 / 16) else g3
  else g1

/-- One iteration of the Floyd-Steinberg loop body at pixel `(x, y)`:
threshold the (error-adjusted) gray value, record the ink decision, and if
the quantization error exceeds the noise floor 10 in magnitude
(`Math.abs(error) > 10`), diffuse it to the neighbors; otherwise skip
error propagation entirely. -/
def fsStep (t : ℚ) (W H : Nat) (y x : Nat) (st : DitherState) : DitherState :=
  let oldPixel := st.1 (y * W + x)
  let ink : Bool := decide (oldPixel < t)
  let d := Function.update st.2 (y * W + x) ink
  let error := quantErr t oldPixel
  (if 10 < |error| then diffuseError W H y x error st.1 else st.1, d)

/-- The inner loop of the dithering pass: one full row `y`, pixels
`x = 0, …, W-1` in order. -/
def ditherRow (t : ℚ) (W H : Nat) (y : Nat) (st : DitherState) : DitherState :=
  (List.range W).foldl (fun s x => fsStep t W H y x s) st

/-- Initial dithering state from the initial grayscale map. -/
def ditherInit (g0 : Nat → ℚ) : DitherState := (g0, fun _ => true)

/-- The full dithering pass: rows `y = 0, …, H-1` in order. -/
def fsDither (t : ℚ) (W H : Nat) (g0 : Nat → ℚ) : DitherState :=
  (List.range H).foldl (fun s y => ditherRow t W H y s) (ditherInit g0)

/-- The dithering state just before pixel `(x, y)` is processed: all rows
before `y`, then the pixels of row `y` before `x`. -/
def ditherAt (t : ℚ) (W H : Nat) (g0 : Nat → ℚ) (y x : Nat) : DitherState :=
  (List.range x).foldl (fun s x2 => fsStep t W H y x2 s)
    ((List.range y).foldl (fun s y2 => ditherRow t W H y2 s) (ditherInit g0))

/-- One byte of the packed bitmap: the loop
`for bit in 0..7: if (px < width && dithered[y*width+px] === 0)
byte |= 1 << (7 - bit)` with `px = x0 + bit`. -/
def packByte (W : Nat) (d : Nat → Bool) (y x0 : Nat) : Nat :=
  (List.range 8).foldl
    (fun byte bit =>
      if (x0 + bit < W) && d (y * W + (x0 + bit)) then
        byte ||| (1 <<< (7 - bit))
      else byte)
    0

/-- The packed bitmap: one row per scan line, one byte per group of 8
pixels (the source loop `for (x = 0; x < width; x += 8)` runs
`⌈W/8⌉` times). -/
def bitmapRows (W H : Nat) (d : Nat → Bool) : List (List Nat) :=
  (List.range H).map
    (fun y => (List.range ((W + 7) / 8)).map (fun g => packByte W d y (8 * g)))

/-- The scaled canvas width computed by `imageToEscPosBitmap`: clamp to
`maxWidth` when the source is wider, then floor to a multiple of 8 with
minimum 8 (`width = Math.floor(width / 8) * 8; if (width === 0) width = 8`). -/
def scaledW (srcW maxW : Nat) : Nat :=
  let w := if maxW < srcW then maxW else srcW
  let w8 := w / 8 * 8
  if w8 = 0 then 8 else w8

/-- The scaled canvas height: `Math.floor((height * maxWidth) / width)` when
the source is wider than `maxWidth`, unchanged otherwise. -/
def scaledH (srcW srcH maxW : Nat) : Nat :=
  if maxW < srcW then srcH * maxW / srcW else srcH

/-- The scaled canvas dimensions computed by `imageToEscPosBitmap`. -/
def scaledDims (srcW srcH maxW : Nat) : Nat × Nat :=
  (scaledW srcW maxW, scaledH srcW srcH maxW)

/-- Luminance of one RGBA pixel: `r * 0.299 + g * 0.587 + b * 0.114`. -/
def luminance (p : ℚ × ℚ × ℚ) : ℚ :=
  p.1 * (299 / 1000) + p.2.1 * (587 / 1000) + p.2.2 * (114 / 1000)

/-- The threshold used by the source (`const threshold = 200`). -/
def defaultThreshold : ℚ := 200

/-- The full bitmap encoder: scale dimensions, convert the scaled pixels to
grayscale luminance, Floyd-Steinberg dither against the threshold, and
bit-pack the result MSB-first. `pix` is the scaled canvas readback. -/
def imageToEscPosBitmap (srcW srcH maxW : Nat) (pix : Nat → ℚ × ℚ × ℚ)
    (t : ℚ) : List (List Nat) :=
  let W := (scaledDims srcW srcH maxW).1
  let H := (scaledDims srcW srcH maxW).2
  bitmapRows W H (fsDither t W H (fun i => luminance (pix i))).2

/-! ## Helper lemmas -/

theorem rasterCommand_eq (bm : List (List Nat)) (wb : Nat)
    (hne : bm ≠ []) (hrow : ∀ r ∈ bm, r.length = wb) :
    rasterCommand bm =
      [GS, 0x76, 0x30, 0x00, wb % 256, wb / 256 % 256,
        bm.length % 256, bm.length / 256 % 256] ++ bm.flatten := by
  match bm, hne with
  | r :: rest, _ =>
    have hr : r.length = wb := hrow r (List.mem_cons_self r rest)
    simp [rasterCommand, hr]

theorem rasterCommand_take8 (bm : List (List Nat)) (wb : Nat)
    (hne : bm ≠ []) (hrow : ∀ r ∈ bm, r.length = wb) :
    (rasterCommand bm).take 8 =
      [GS, 0x76, 0x30, 0x00, wb % 256, wb / 256 % 256,
        bm.length % 256, bm.length / 256 % 256] := by
  rw [rasterCommand_eq bm wb hne hrow]
  rfl

theorem chunkBytes_flatten (data : List Nat) :
    (chunkBytes data).flatten = data := by
  induction data using chunkBytes.induct with
  | case1 data h => rw [chunkBytes]; simp [h]
  | case2 data h ih =>
    rw [chunkBytes]
    simp only [h, if_false, List.flatten_cons, ih, List.take_append_drop]

theorem chunkBytes_le (data : List Nat) :
    ∀ c ∈ chunkBytes data, c.length ≤ maxChunkSize := by
  induction data using chunkBytes.induct with
  | case1 data h =>
    rw [chunkBytes]
    simp only [h, if_true, List.mem_singleton]
    intro c hc; subst hc; exact h
  | case2 data h ih =>
    rw [chunkBytes]
    simp only [h, if_false, List.mem_cons]
    intro c hc
    rcases hc with hc | hc
    · subst hc; simp [List.length_take]
    · exact ih c hc

theorem sendCmds_ok (cmds : List (List Nat)) :
    ∀ (tr : List PrintEv) (k : Nat),
      sendCmds noFailOracle cmds tr k =
        ((tr ++ cmds.map PrintEv.sent, k + cmds.length), none) := by
  induction cmds with
  | nil => intro tr k; simp [sendCmds]
  | cons c rest ih =>
    intro tr k
    rw [sendCmds]
    show sendCmds noFailOracle rest (tr ++ [PrintEv.sent c]) (k + 1) = _
    rw [ih]
    simp [List.append_assoc]
    omega

theorem printLoop_ok (total : Nat) (bms : List (List (List Nat))) :
    ∀ (i : Nat) (tr : List PrintEv) (k : Nat),
      printLoop noFailOracle total bms i tr k =
        ((tr ++ expectedBatchTrace total bms i, k + 6 * bms.length), none) := by
  induction bms with
  | nil => intro i tr k; simp [printLoop, expectedBatchTrace]
  | cons bm rest ih =>
    intro i tr k
    rw [printLoop, sendCmds_ok]
    show printLoop noFailOracle total rest (i + 1)
        (tr ++ (imageCommands bm).map PrintEv.sent ++ [PrintEv.progress (i + 1) total])
        (k + (imageCommands bm).length) = _
    rw [ih]
    simp only [expectedBatchTrace, imageCommands]
    simp [List.append_assoc]
    omega

theorem sendCmds_failAt (cmds : List (List Nat)) :
    ∀ (n k : Nat) (msg : String) (tr : List PrintEv), n < cmds.length →
      sendCmds (failAt (k + n) msg) cmds tr k =
        ((tr ++ (cmds.take n).map PrintEv.sent, k + n), some msg) := by
  induction cmds with
  | nil => intro n k msg tr h; simp at h
  | cons c rest ih =>
    intro n k msg tr h
    cases n with
    | zero =>
      rw [sendCmds]
      have hor : failAt (k + 0) msg k = some msg := by
        simp only [failAt]
        rw [if_pos (by omega)]
      rw [hor]
      simp
    | succ n2 =>
      rw [sendCmds]
      have hor : failAt (k + (n2 + 1)) msg k = none := by
        simp only [failAt]
        rw [if_neg (by omega)]
      rw [hor]
      show sendCmds (failAt (k + (n2 + 1)) msg) rest (tr ++ [PrintEv.sent c]) (k + 1) = _
      have hidx : k + (n2 + 1) = (k + 1) + n2 := by omega
      rw [hidx, ih n2 (k + 1) msg (tr ++ [PrintEv.sent c])
        (by simp only [List.length_cons] at h; omega)]
      simp [List.take_succ_cons, List.append_assoc]

theorem sendCmds_noFailBelow (cmds : List (List Nat)) :
    ∀ (n k : Nat) (msg : String) (tr : List PrintEv), cmds.length ≤ n →
      sendCmds (failAt (k + n) msg) cmds tr k =
        ((tr ++ cmds.map PrintEv.sent, k + cmds.length), none) := by
  induction cmds with
  | nil => intro n k msg tr _; simp [sendCmds]
  | cons c rest ih =>
    intro n k msg tr h
    have hn : 1 ≤ n := by simp only [List.length_cons] at h; omega
    rw [sendCmds]
    have hor : failAt (k + n) msg k = none := by
      simp only [failAt]
      rw [if_neg (by omega)]
    rw [hor]
    show sendCmds (failAt (k + n) msg) rest (tr ++ [PrintEv.sent c]) (k + 1) = _
    have hidx : k + n = (k + 1) + (n - 1) := by omega
    rw [hidx, ih (n - 1) (k + 1) msg (tr ++ [PrintEv.sent c])
      (by simp only [List.length_cons] at h; omega)]
    simp [List.append_assoc]
    omega

theorem printLoop_failAt (total : Nat) (bms : List (List (List Nat))) :
    ∀ (n i k : Nat) (msg : String) (tr : List PrintEv), n < 6 * bms.length →
      printLoop (failAt (k + n) msg) total bms i tr k =
        ((tr ++ expectedFailTrace total bms i n, k + n), some msg) := by
  induction bms with
  | nil => intro n i k msg tr h; simp at h
  | cons bm rest ih =>
    intro n i k msg tr h
    rw [printLoop]
    by_cases h6 : 6 ≤ n
    · have hc : (imageCommands bm).length ≤ n := by
        simp only [imageCommands, List.length_cons, List.length_nil]
        omega
      rw [sendCmds_noFailBelow (imageCommands bm) n k msg tr hc]
      show printLoop (failAt (k + n) msg) total rest (i + 1)
          ((tr ++ (imageCommands bm).map PrintEv.sent)
            ++ [PrintEv.progress (i + 1) total])
          (k + (imageCommands bm).length) = _
      have hidx : k + n = (k + (imageCommands bm).length) + (n - 6) := by
        simp only [imageCommands, List.length_cons, List.length_nil]
        omega
      rw [hidx, ih (n - 6) (i + 1) (k + (imageCommands bm).length) msg _
        (by simp only [List.length_cons] at h; omega)]
      rw [expectedFailTrace, if_pos h6]
      simp [List.append_assoc]
    · have hn : n < (imageCommands bm).length := by
        simp only [imageCommands, List.length_cons, List.length_nil]
        omega
      rw [sendCmds_failAt (imageCommands bm) n k msg tr hn]
      show ((tr ++ ((imageCommands bm).take n).map PrintEv.sent, k + n), some msg) = _
      rw [expectedFailTrace, if_neg h6]

theorem countP_progress_map_sent (cmds : List (List Nat)) :
    (cmds.map PrintEv.sent).countP isProgressEv = 0 := by
  rw [List.countP_eq_zero]
  intro a ha
  rw [List.mem_map] at ha
  obtain ⟨c, _, hc⟩ := ha
  subst hc
  simp [isProgressEv]

theorem countP_sent_map_sent (cmds : List (List Nat)) :
    (cmds.map PrintEv.sent).countP isSentEv = cmds.length := by
  have hlen : cmds.length = (cmds.map PrintEv.sent).length := by simp
  rw [hlen, List.countP_eq_length]
  intro a ha
  rw [List.mem_map] at ha
  obtain ⟨c, _, hc⟩ := ha
  subst hc
  rfl

theorem expectedFailTrace_counts (total : Nat) (bms : List (List (List Nat))) :
    ∀ (i n : Nat), n < 6 * bms.length →
      (expectedFailTrace total bms i n).countP isProgressEv = n / 6
    ∧ (expectedFailTrace total bms i n).countP isSentEv = n := by
  induction bms with
  | nil => intro i n h; simp at h
  | cons bm rest ih =>
    intro i n h
    rw [expectedFailTrace]
    by_cases h6 : 6 ≤ n
    · rw [if_pos h6]
      have hrec := ih (i + 1) (n - 6) (by simp only [List.length_cons] at h; omega)
      constructor
      · rw [List.countP_append, List.countP_append,
          countP_progress_map_sent, hrec.1]
        simp [List.countP_cons, isProgressEv]
        omega
      · rw [List.countP_append, List.countP_append,
          countP_sent_map_sent, hrec.2]
        simp [List.countP_cons, isSentEv, imageCommands]
        omega
    · rw [if_neg h6]
      constructor
      · rw [countP_progress_map_sent]
        omega
      · rw [countP_sent_map_sent, List.length_take]
        simp only [imageCommands, List.length_cons, List.length_nil]
        omega

theorem selectService_some_of_ne_nil (srv : BtServer) (h : srv.services ≠ []) :
    ∃ s, selectService srv = some s := by
  rw [selectService]
  cases hfs : commonServiceUUIDs.findSome? (fun u => getPrimaryService srv u) with
  | some s => exact ⟨s, rfl⟩
  | none =>
    cases hsv : srv.services with
    | nil => exact absurd hsv h
    | cons a l => exact ⟨a, by simp⟩

theorem selectService_mem (srv : BtServer) (s : BtService)
    (h : selectService srv = some s) : s ∈ srv.services := by
  rw [selectService] at h
  cases hfs : commonServiceUUIDs.findSome? (fun u => getPrimaryService srv u) with
  | some s2 =>
    rw [hfs] at h
    obtain ⟨u, _, hu⟩ := List.exists_of_findSome?_eq_some hfs
    rw [getPrimaryService] at hu
    have hs2 : s2 = s := Option.some.inj h
    subst hs2
    exact List.mem_of_find?_eq_some hu
  | none =>
    rw [hfs] at h
    exact List.mem_of_mem_head? (Option.mem_def.mpr h)

theorem selectCharacteristic_none_no_writable (s : BtService)
    (h : selectCharacteristic s = none) :
    ∀ c ∈ s.characteristics, isWritable c = false := by
  intro c hc
  rw [selectCharacteristic] at h
  cases hfs : commonCharUUIDs.findSome? (fun u => getCharacteristic s u) with
  | some c2 => rw [hfs] at h; simp at h
  | none =>
    rw [hfs] at h
    have := List.find?_eq_none.mp h c hc
    simpa using this

theorem scaledW_mod8 (srcW maxW : Nat) : scaledW srcW maxW % 8 = 0 := by
  rw [scaledW]
  by_cases h8 : (if maxW < srcW then maxW else srcW) / 8 * 8 = 0
  · simp [h8]
  · simp [h8, Nat.mul_mod_left]

theorem scaledW_ge8 (srcW maxW : Nat) : 8 ≤ scaledW srcW maxW := by
  rw [scaledW]
  set w := if maxW < srcW then maxW else srcW with hw
  by_cases h8 : w / 8 * 8 = 0
  · simp [h8]
  · simp only [h8, if_false]
    have hq : 0 < w / 8 := by
      rcases Nat.eq_zero_or_pos (w / 8) with h | h
      · exact absurd (by rw [h]) h8
      · exact h
    calc 8 = 1 * 8 := by norm_num
    _ ≤ w / 8 * 8 := Nat.mul_le_mul_right 8 hq

theorem scaledW_le (srcW maxW : Nat) : scaledW srcW maxW ≤ max 8 maxW := by
  rw [scaledW]
  by_cases hlt : maxW < srcW
  · simp only [hlt, if_true]
    by_cases h8 : maxW / 8 * 8 = 0
    · simp [h8]
    · simp only [h8, if_false]
      exact le_trans (Nat.div_mul_le_self maxW 8) (le_max_right 8 maxW)
  · simp only [hlt, if_false]
    by_cases h8 : srcW / 8 * 8 = 0
    · simp [h8]
    · simp only [h8, if_false]
      exact le_trans (Nat.div_mul_le_self srcW 8)
        (le_trans (Nat.le_of_not_lt hlt) (le_max_right 8 maxW))

/-! ## Claim theorems -/

/-- C1: for every bitmap of `height` rows each of `widthBytes` bytes, the
raster-transfer command is exactly the 8-byte header
`[0x1D, 0x76, 0x30, 0x00, widthBytes & 0xff, (widthBytes >> 8) & 0xff,
height & 0xff, (height >> 8) & 0xff]` followed by the bitmap payload
row-major (row 0 first, each row's bytes in order). -/
theorem rasterCommand_header_layout (bm : List (List Nat)) (wb : Nat)
    (hne : bm ≠ []) (hrow : ∀ r ∈ bm, r.length = wb) :
    rasterCommand bm =
      [0x1d, 0x76, 0x30, 0x00, wb % 256, wb / 256 % 256,
        bm.length % 256, bm.length / 256 % 256] ++ bm.flatten :=
  rasterCommand_eq bm wb hne hrow

/-- C1 witness: a 3-byte-wide, 500-row bitmap yields header bytes
`[0x1D,0x76,0x30,0x00, 0x03,0x00, 0xF4,0x01]` (500 = 0x01F4). -/
theorem rasterCommand_header_layout_witness :
    rasterCommand (List.replicate 500 [0, 0, 0]) =
      [0x1d, 0x76, 0x30, 0x00, 3, 0, 0xf4, 0x01]
        ++ (List.replicate 500 ([0, 0, 0] : List Nat)).flatten := by
  have h := rasterCommand_header_layout (List.replicate 500 ([0, 0, 0] : List Nat)) 3
    (by
      intro hnil
      have h5 : (List.replicate 500 ([0, 0, 0] : List Nat)).length = 500 :=
        List.length_replicate 500 _
      rw [hnil] at h5
      exact absurd h5 (by decide))
    (by intro r hr; rw [List.eq_of_mem_replicate hr]; rfl)
  rw [List.length_replicate] at h
  norm_num at h
  exact h

/-- C6 counterexample: for a bitmap of height 70000 (> 65535) the builder
does not fail: it emits a command whose 16-bit little-endian height field
holds 70000 % 65536 = 4464, i.e. silent truncation, contradicting the
claimed `ProtocolEncodingError` fail-fast behavior. -/
theorem rasterCommand_truncation_counterexample :
    (rasterCommand (List.replicate 70000 [0])).take 8 =
        [0x1d, 0x76, 0x30, 0x00, 1, 0, 112, 17]
      ∧ 112 + 256 * 17 = 70000 % 65536
      ∧ 70000 % 65536 ≠ 70000 := by
  refine ⟨?_, by norm_num, by norm_num⟩
  have h := rasterCommand_take8 (List.replicate 70000 ([0] : List Nat)) 1
    (by
      intro hnil
      have h7 : (List.replicate 70000 ([0] : List Nat)).length = 70000 :=
        List.length_replicate 70000 _
      rw [hnil] at h7
      exact absurd h7 (by decide))
    (by intro r hr; rw [List.eq_of_mem_replicate hr]; rfl)
  rw [List.length_replicate] at h
  norm_num at h
  exact h

/-- C6 amended: building the raster-transfer command never fails; for every
bitmap its 16-bit little-endian width/height header fields hold the
row-byte-length and row count reduced modulo 65536 (silent truncation for
values above 65535). -/
theorem rasterCommand_truncates_mod_65536 (bm : List (List Nat)) (wb : Nat)
    (hne : bm ≠ []) (hrow : ∀ r ∈ bm, r.length = wb) :
    (rasterCommand bm).take 8 =
        [0x1d, 0x76, 0x30, 0x00, wb % 256, wb / 256 % 256,
          bm.length % 256, bm.length / 256 % 256]
      ∧ wb % 256 + 256 * (wb / 256 % 256) = wb % 65536
      ∧ bm.length % 256 + 256 * (bm.length / 256 % 256) = bm.length % 65536 := by
  refine ⟨rasterCommand_take8 bm wb hne hrow, ?_, ?_⟩ <;>
    · rw [show (65536 : Nat) = 256 * 256 from rfl, Nat.mod_mul]

/-- C6 amended witness: concrete 2-row bitmap of 1-byte rows. -/
theorem rasterCommand_truncates_mod_65536_witness :
    ([[5], [6]] : List (List Nat)) ≠ []
      ∧ ((rasterCommand [[5], [6]]).take 8 =
            [0x1d, 0x76, 0x30, 0x00, 1 % 256, 1 / 256 % 256, 2 % 256, 2 / 256 % 256]
          ∧ 1 % 256 + 256 * (1 / 256 % 256) = 1 % 65536
          ∧ 2 % 256 + 256 * (2 / 256 % 256) = 2 % 65536) :=
  ⟨by decide,
    rasterCommand_truncates_mod_65536 [[5], [6]] 1 (by decide) (by decide)⟩

/-- C8: `sendCommand` splits a command payload into chunks of at most 200
bytes, written sequentially in order, every write using the
non-acknowledged mode exactly when the characteristic supports it; the
concatenation of the written chunks is the original payload. -/
theorem sendCommand_chunking_refines (wwr : Bool) (data : List Nat) :
    ((sendWrites wwr data).map Prod.fst).flatten = data
      ∧ ∀ p ∈ sendWrites wwr data,
          p.1.length ≤ maxChunkSize
            ∧ p.2 = (if wwr then WriteMode.noAck else WriteMode.ack) := by
  constructor
  · rw [sendWrites, List.map_map]
    have hid : (Prod.fst ∘ fun c : List Nat =>
        (c, if wwr = true then WriteMode.noAck else WriteMode.ack)) = id := rfl
    rw [hid, List.map_id]
    exact chunkBytes_flatten data
  · intro p hp
    rw [sendWrites, List.mem_map] at hp
    obtain ⟨c, hc, hcp⟩ := hp
    subst hcp
    exact ⟨chunkBytes_le data c hc, rfl⟩

/-- C8 witness: a 250-byte command is delivered in chunks whose
concatenation is the original payload. -/
theorem sendCommand_chunking_refines_witness :
    ((sendWrites true (List.replicate 250 7)).map Prod.fst).flatten =
      List.replicate 250 7 :=
  (sendCommand_chunking_refines true (List.replicate 250 7)).1

/-- C3: a successful `printImages` run over any batch produces exactly, for
each image in batch order, the command sequence init, density, line
spacing, raster transfer, feed, cut followed by that image's progress
callback — commands of different images are never interleaved, and each
send completes (synchronously in the trace order) before the next is
issued. -/
theorem printImages_command_order (bms : List (List (List Nat))) :
    printImagesRun true none noFailOracle bms =
      (PrintEv.connectAttempt :: expectedBatchTrace bms.length bms 0, none) := by
  rw [printImagesRun]
  simp only [Bool.true_eq_false, if_false]
  rw [printLoop_ok]
  rfl

/-- C4 counterexample: with two one-row bitmaps and the 10th send (the
second image's raster transfer) failing with message "boom", the rejection
reaching the caller is `Failed to print: boom`, not the unmodified internal
error "boom" — `printImages` wraps every internal failure in a new error. -/
theorem printImages_error_wrap_counterexample :
    (printImagesRun true none (failAt 9 "boom") [[[0]], [[0]]]).2 =
        some "Failed to print: boom"
      ∧ (printImagesRun true none (failAt 9 "boom") [[[0]], [[0]]]).2 ≠
        some "boom" := by
  constructor <;> decide

/-- C4 amended: for every batch and every failing send — the n-th command
of the run, six commands per image, failing with any message — the first
error aborts `printImages` immediately: the trace holds exactly the `n`
commands sent before the failure (no further commands, no partial-batch
continuation) and exactly one progress callback per fully completed image
(`⌊n/6⌋` of them: the image in progress at the failure gets none); the
error reaching the caller is a new error wrapping the internal message
with the prefix "Failed to print: " (neither swallowed nor silently
dropped, but re-wrapped rather than propagated unmodified). -/
theorem printImages_abort_wrapped_error (bms : List (List (List Nat)))
    (n : Nat) (msg : String) (h : n < 6 * bms.length) :
    printImagesRun true none (failAt n msg) bms =
      (PrintEv.connectAttempt :: expectedFailTrace bms.length bms 0 n,
        some (wrapPrintError msg))
  ∧ (expectedFailTrace bms.length bms 0 n).countP isProgressEv = n / 6
  ∧ (expectedFailTrace bms.length bms 0 n).countP isSentEv = n := by
  refine ⟨?_, (expectedFailTrace_counts bms.length bms 0 n h).1,
    (expectedFailTrace_counts bms.length bms 0 n h).2⟩
  rw [printImagesRun]
  simp only [Bool.true_eq_false, if_false]
  rw [show failAt n msg = failAt (0 + n) msg by rw [Nat.zero_add],
    printLoop_failAt bms.length bms n 0 0 msg [PrintEv.connectAttempt] h]
  rfl

/-- C4 witness: two one-row bitmaps with send 9 — the second image's
raster transfer — failing with "boom": the rejection is the wrapped
"Failed to print: boom" and exactly one progress callback fired (for the
first image). -/
theorem printImages_abort_wrapped_error_witness :
    (9 < 6 * ([[[0]], [[0]]] : List (List (List Nat))).length)
  ∧ (printImagesRun true none (failAt 9 "boom") [[[0]], [[0]]] =
        (PrintEv.connectAttempt :: expectedFailTrace 2 [[[0]], [[0]]] 0 9,
          some (wrapPrintError "boom"))
    ∧ (expectedFailTrace 2 [[[0]], [[0]]] 0 9).countP isProgressEv = 9 / 6
    ∧ (expectedFailTrace 2 [[[0]], [[0]]] 0 9).countP isSentEv = 9) :=
  ⟨by decide, printImages_abort_wrapped_error [[[0]], [[0]]] 9 "boom" (by decide)⟩

/-- C10: with no device bound, `printImages` rejects with the
"No printer connected" error before any connection attempt or write (empty
trace); with a bound device and an empty batch it still performs
connection/discovery (and surfaces a discovery failure) but writes no
command bytes, fires no progress callback, and resolves on success. -/
theorem printImages_guard_and_empty_batch :
    (∀ (cErr : Option String) (oracle : SendOracle) (bms : List (List (List Nat))),
        printImagesRun false cErr oracle bms = ([], some noPrinterMsg))
      ∧ (∀ oracle : SendOracle,
          printImagesRun true none oracle [] = ([PrintEv.connectAttempt], none))
      ∧ (∀ (m : String) (oracle : SendOracle),
          printImagesRun true (some m) oracle [] =
            ([PrintEv.connectAttempt], some (wrapPrintError m))) :=
  ⟨fun _ _ _ => rfl, fun _ => rfl, fun _ _ => rfl⟩

/-- C7: `connectToPrinter` fails with the no-services error exactly when
the device exposes zero services (the internal "no compatible service"
error is unreachable); when no known service UUID matches it selects the
first available service; when no known characteristic UUID matches it falls
back to the first characteristic exposing a write capability, and it fails
with the no-writable-characteristic error only when no characteristic of
the selected service supports writing; whenever a characteristic is
selected, connection succeeds with it. -/
theorem connectToPrinter_discovery_spec (srv : BtServer) :
    (connectToPrinter srv = Except.error ConnectError.noServicesFound ↔
        srv.services = [])
  ∧ connectToPrinter srv ≠ Except.error ConnectError.noCompatibleService
  ∧ (commonServiceUUIDs.findSome? (fun u => getPrimaryService srv u) = none →
        selectService srv = srv.services.head?)
  ∧ ∀ s, selectService srv = some s →
      (commonCharUUIDs.findSome? (fun u => getCharacteristic s u) = none →
          selectCharacteristic s = s.characteristics.find? isWritable)
    ∧ (connectToPrinter srv = Except.error ConnectError.noWritableCharacteristic →
          ∀ c ∈ s.characteristics, isWritable c = false)
    ∧ ∀ c, selectCharacteristic s = some c →
        connectToPrinter srv = Except.ok c := by
  refine ⟨⟨?_, ?_⟩, ?_, ?_, ?_⟩
  · intro h
    by_contra hne
    have hlen : ¬ srv.services.length = 0 := fun h0 =>
      hne (List.length_eq_zero.mp h0)
    rw [connectToPrinter, if_neg hlen] at h
    obtain ⟨s, hs⟩ := selectService_some_of_ne_nil srv hne
    rw [hs] at h
    dsimp only at h
    cases hc : selectCharacteristic s with
    | none => rw [hc] at h; simp at h
    | some c => rw [hc] at h; simp at h
  · intro h
    rw [connectToPrinter, if_pos (by rw [h]; rfl)]
  · by_cases hlen : srv.services.length = 0
    · rw [connectToPrinter, if_pos hlen]
      simp
    · have hne : srv.services ≠ [] := fun h0 => hlen (by rw [h0]; rfl)
      rw [connectToPrinter, if_neg hlen]
      obtain ⟨s, hs⟩ := selectService_some_of_ne_nil srv hne
      rw [hs]
      dsimp only
      cases hc : selectCharacteristic s with
      | none => simp
      | some c => simp
  · intro h
    rw [selectService, h]
  · intro s hs
    refine ⟨?_, ?_, ?_⟩
    · intro h
      rw [selectCharacteristic, h]
    · intro herr
      have hne : srv.services ≠ [] :=
        List.ne_nil_of_mem (selectService_mem srv s hs)
      have hlen : ¬ srv.services.length = 0 := fun h0 =>
        hne (List.length_eq_zero.mp h0)
      rw [connectToPrinter, if_neg hlen, hs] at herr
      dsimp only at herr
      cases hc : selectCharacteristic s with
      | none => exact selectCharacteristic_none_no_writable s hc
      | some c => rw [hc] at herr; simp at herr
    · intro c hc
      have hne : srv.services ≠ [] :=
        List.ne_nil_of_mem (selectService_mem srv s hs)
      have hlen : ¬ srv.services.length = 0 := fun h0 =>
        hne (List.length_eq_zero.mp h0)
      rw [connectToPrinter, if_neg hlen, hs]
      dsimp only
      rw [hc]

/-- C7 witness: a device exposing a single service whose UUID is not in the
known list, with one writable characteristic of unknown UUID, still
connects successfully by fallback selection. -/
theorem connectToPrinter_discovery_spec_witness :
    selectService (BtServer.mk [BtService.mk "0000aaaa-0000-1000-8000-00805f9b34fb"
        [BtCharacteristic.mk "0000bbbb-0000-1000-8000-00805f9b34fb" true false]])
      = some (BtService.mk "0000aaaa-0000-1000-8000-00805f9b34fb"
          [BtCharacteristic.mk "0000bbbb-0000-1000-8000-00805f9b34fb" true false])
  ∧ connectToPrinter (BtServer.mk [BtService.mk "0000aaaa-0000-1000-8000-00805f9b34fb"
        [BtCharacteristic.mk "0000bbbb-0000-1000-8000-00805f9b34fb" true false]])
      = Except.ok (BtCharacteristic.mk "0000bbbb-0000-1000-8000-00805f9b34fb" true false) :=
  ⟨by decide,
    ((connectToPrinter_discovery_spec (BtServer.mk
        [BtService.mk "0000aaaa-0000-1000-8000-00805f9b34fb"
          [BtCharacteristic.mk "0000bbbb-0000-1000-8000-00805f9b34fb" true false]])).2.2.2
      (BtService.mk "0000aaaa-0000-1000-8000-00805f9b34fb"
        [BtCharacteristic.mk "0000bbbb-0000-1000-8000-00805f9b34fb" true false])
      (by decide)).2.2
      (BtCharacteristic.mk "0000bbbb-0000-1000-8000-00805f9b34fb" true false)
      (by decide)⟩

/-- C2: the encoder's output width is a multiple of 8 with
`8 ≤ W ≤ max 8 maxColumnWidth`; a source wider than `maxColumnWidth` is
downscaled preserving aspect ratio (`height` becomes
`⌊srcH * maxColumnWidth / srcW⌋`) before the floor-to-multiple-of-8, a
source no wider than `maxColumnWidth` is not downscaled (only the
divisible-by-8 floor with minimum 8 applies to the width); the bitmap has
one row per scaled scan line and every row has exactly `W / 8` bytes. -/
theorem imageToEscPosBitmap_dimension_spec (srcW srcH maxW : Nat)
    (pix : Nat → ℚ × ℚ × ℚ) (t : ℚ) :
    scaledW srcW maxW % 8 = 0
  ∧ 8 ≤ scaledW srcW maxW
  ∧ scaledW srcW maxW ≤ max 8 maxW
  ∧ (maxW < srcW → scaledH srcW srcH maxW = srcH * maxW / srcW)
  ∧ (srcW ≤ maxW →
        scaledH srcW srcH maxW = srcH
      ∧ scaledW srcW maxW = (if srcW / 8 * 8 = 0 then 8 else srcW / 8 * 8))
  ∧ (imageToEscPosBitmap srcW srcH maxW pix t).length = scaledH srcW srcH maxW
  ∧ ∀ row ∈ imageToEscPosBitmap srcW srcH maxW pix t,
      row.length = scaledW srcW maxW / 8 := by
  refine ⟨scaledW_mod8 srcW maxW, scaledW_ge8 srcW maxW, scaledW_le srcW maxW,
    ?_, ?_, ?_, ?_⟩
  · intro hlt
    rw [scaledH, if_pos hlt]
  · intro hle
    have hlt : ¬ maxW < srcW := Nat.not_lt.mpr hle
    exact ⟨by rw [scaledH, if_neg hlt], by rw [scaledW]; simp [hlt]⟩
  · simp [imageToEscPosBitmap, bitmapRows, scaledDims]
  · intro row hrow
    rw [imageToEscPosBitmap] at hrow
    simp only [scaledDims, bitmapRows, List.mem_map] at hrow
    obtain ⟨y, _, hy⟩ := hrow
    have h8 := scaledW_mod8 srcW maxW
    rw [← hy]
    simp only [List.length_map, List.length_range]
    omega

/-- C2 witness: a 640×480 source at `maxColumnWidth = 384` is downscaled,
the height becoming `⌊480·384/640⌋ = 288`. -/
theorem imageToEscPosBitmap_dimension_spec_witness :
    384 < 640 ∧ scaledH 640 480 384 = 480 * 384 / 640 :=
  ⟨by decide,
    (imageToEscPosBitmap_dimension_spec 640 480 384 (fun _ => (0, 0, 0))
      200).2.2.2.1 (by decide)⟩

theorem fsStep_d_apply (t : ℚ) (W H y x : Nat) (st : DitherState) :
    (fsStep t W H y x st).2 =
      Function.update st.2 (y * W + x) (decide (st.1 (y * W + x) < t)) := rfl

set_option maxHeartbeats 2000000 in
theorem diffuseError_apply (W H y x : Nat) (e : ℚ) (g : Nat → ℚ) (j : Nat)
    (hx : x < W) :
    diffuseError W H y x e g j =
      g j +
        ((if x + 1 < W ∧ j = y * W + x + 1 then e * 7 / 16 else 0)
        + (if y + 1 < H ∧ 0 < x ∧ j = y * W + x + W - 1 then e * 3 / 16 else 0)
        + (if y + 1 < H ∧ j = y * W + x + W then e * 5 / 16 else 0)
        + (if y + 1 < H ∧ x + 1 < W ∧ j = y * W + x + W + 1 then e * 1 / 16 else 0)) := by
  rw [diffuseError]
  by_cases hyy : y + 1 < H <;> by_cases hxx : x + 1 < W <;> by_cases hx0 : 0 < x <;>
    simp only [hyy, hxx, hx0, if_true, if_false, ite_true, ite_false,
      true_and, false_and, and_true, and_false, Function.update_apply] <;>
    (try split_ifs) <;> (try subst_vars) <;>
    first
      | rfl
      | ring1
      | (exfalso; omega)

theorem fsStep_g_apply (t : ℚ) (W H y x : Nat) (st : DitherState) (j : Nat)
    (hx : x < W) :
    (fsStep t W H y x st).1 j =
      st.1 j +
        (if 10 < |quantErr t (st.1 (y * W + x))| then
            (if x + 1 < W ∧ j = y * W + x + 1 then
              quantErr t (st.1 (y * W + x)) * 7 / 16 else 0)
          + (if y + 1 < H ∧ 0 < x ∧ j = y * W + x + W - 1 then
              quantErr t (st.1 (y * W + x)) * 3 / 16 else 0)
          + (if y + 1 < H ∧ j = y * W + x + W then
              quantErr t (st.1 (y * W + x)) * 5 / 16 else 0)
          + (if y + 1 < H ∧ x + 1 < W ∧ j = y * W + x + W + 1 then
              quantErr t (st.1 (y * W + x)) * 1 / 16 else 0)
          else 0) := by
  show (if 10 < |quantErr t (st.1 (y * W + x))| then
      diffuseError W H y x (quantErr t (st.1 (y * W + x))) st.1 else st.1) j = _
  by_cases h10 : 10 < |quantErr t (st.1 (y * W + x))|
  · rw [if_pos h10, if_pos h10, diffuseError_apply W H y x _ st.1 j hx]
  · rw [if_neg h10, if_neg h10, add_zero]

theorem foldlRow_d_preserved (t : ℚ) (W H y j : Nat) (xs : List Nat)
    (st : DitherState) (h : ∀ x ∈ xs, y * W + x ≠ j) :
    (xs.foldl (fun s x => fsStep t W H y x s) st).2 j = st.2 j := by
  induction xs generalizing st with
  | nil => rfl
  | cons a l ih =>
    rw [List.foldl_cons, ih _ (fun x hx => h x (List.mem_cons_of_mem a hx))]
    rw [fsStep_d_apply]
    exact Function.update_noteq (Ne.symm (h a (List.mem_cons_self a l))) _ _

theorem foldlRows_d_preserved (t : ℚ) (W H j : Nat) (ys : List Nat)
    (st : DitherState) (h : ∀ y ∈ ys, ∀ x, x < W → y * W + x ≠ j) :
    (ys.foldl (fun s y => ditherRow t W H y s) st).2 j = st.2 j := by
  induction ys generalizing st with
  | nil => rfl
  | cons a l ih =>
    rw [List.foldl_cons, ih _ (fun y hy => h y (List.mem_cons_of_mem a hy))]
    rw [ditherRow]
    exact foldlRow_d_preserved t W H a j _ st
      (fun x hx => h a (List.mem_cons_self a l) x (List.mem_range.mp hx))

theorem range_split (m n : Nat) (h : m ≤ n) :
    List.range n = List.range m ++ (List.range (n - m)).map (m + ·) := by
  conv_lhs => rw [show n = m + (n - m) by omega]
  rw [List.range_add]

theorem fsDither_d_at (t : ℚ) (W H : Nat) (g0 : Nat → ℚ) (x y : Nat)
    (hx : x < W) (hy : y < H) :
    (fsDither t W H g0).2 (y * W + x) =
      decide ((ditherAt t W H g0 y x).1 (y * W + x) < t) := by
  rw [fsDither, range_split (y + 1) H (by omega), List.foldl_append,
    foldlRows_d_preserved t W H (y * W + x)
      ((List.range (H - (y + 1))).map ((y + 1) + ·)) _
      (by
        intro y2 hy2 x2 hx2
        rw [List.mem_map] at hy2
        obtain ⟨k, _, hk⟩ := hy2
        subst hk
        have h1 : (y + 1) * W ≤ (y + 1 + k) * W :=
          Nat.mul_le_mul_right W (by omega)
        have h2 : y * W + x < (y + 1) * W := by
          rw [Nat.add_mul, Nat.one_mul]; omega
        omega),
    List.range_succ, List.foldl_append, List.foldl_cons, List.foldl_nil]
  show (ditherRow t W H y _).2 (y * W + x) = _
  rw [ditherRow, range_split (x + 1) W (by omega), List.foldl_append,
    foldlRow_d_preserved t W H y (y * W + x)
      ((List.range (W - (x + 1))).map ((x + 1) + ·)) _
      (by
        intro x2 hx2
        rw [List.mem_map] at hx2
        obtain ⟨k, _, hk⟩ := hx2
        omega),
    List.range_succ, List.foldl_append, List.foldl_cons, List.foldl_nil]
  show (fsStep t W H y x (ditherAt t W H g0 y x)).2 (y * W + x) = _
  rw [fsStep_d_apply]
  exact Function.update_same _ _ _

theorem foldl_orBit_testBit (p : Nat → Bool) (l : List Nat) :
    ∀ (acc b : Nat), b < 8 → (∀ k ∈ l, k < 8) →
      (l.foldl (fun byte bit =>
          if p bit then byte ||| (1 <<< (7 - bit)) else byte) acc).testBit (7 - b)
        = (acc.testBit (7 - b) || l.any (fun k => p k && decide (k = b))) := by
  induction l with
  | nil => intro acc b _ _; simp
  | cons a l ih =>
    intro acc b hb hl
    rw [List.foldl_cons, ih _ b hb (fun k hk => hl k (List.mem_cons_of_mem a hk))]
    have ha : a < 8 := hl a (List.mem_cons_self a l)
    by_cases hpa : p a
    · rw [if_pos hpa, Nat.one_shiftLeft, Nat.testBit_or, Nat.testBit_two_pow]
      by_cases hab : a = b
      · subst hab
        simp [hpa]
      · have hne : ¬ (7 - a = 7 - b) := by omega
        simp [hpa, hab, hne]
    · rw [if_neg hpa]
      simp [hpa]

theorem any_range8_single (b : Nat) (hb : b < 8) (q : Nat → Bool) :
    (List.range 8).any (fun k => q k && decide (k = b)) = q b := by
  rw [show List.range 8 = [0, 1, 2, 3, 4, 5, 6, 7] from rfl]
  interval_cases b <;> simp

theorem packByte_testBit (W : Nat) (d : Nat → Bool) (y x : Nat) (hx : x < W) :
    (packByte W d y (8 * (x / 8))).testBit (7 - x % 8) = d (y * W + x) := by
  have hdm : 8 * (x / 8) + x % 8 = x := Nat.div_add_mod x 8
  have hb : x % 8 < 8 := Nat.mod_lt x (by norm_num)
  rw [packByte,
    foldl_orBit_testBit _ _ 0 (x % 8) hb (fun k hk => List.mem_range.mp hk),
    Nat.zero_testBit, Bool.false_or,
    any_range8_single (x % 8) hb _]
  simp only [hdm]
  simp [hx]

theorem bitmapRows_getD (W H : Nat) (d : Nat → Bool) (y x : Nat)
    (hy : y < H) (hx : x < W) :
    ((bitmapRows W H d).getD y []).getD (x / 8) 0 = packByte W d y (8 * (x / 8)) := by
  have hx8 : x / 8 < (W + 7) / 8 := by omega
  rw [bitmapRows]
  simp [List.getElem?_range hy, List.getElem?_range hx8]

/-- C5: in the dithering pass, a pixel's output bit (both in the dithered
map and in the packed output byte, MSB-first) is ink (`true`/1) exactly
when its error-adjusted luminance — the grayscale value at the moment the
pixel is visited in raster order — is strictly below the threshold; when
the quantization error's magnitude does not exceed the noise floor 10,
error propagation is skipped entirely (the grayscale map is unchanged);
otherwise the error is distributed to the right, below-left, below and
below-right neighbors with weights 7/16, 3/16, 5/16, 1/16, clamped at the
image edges with no wraparound, and no other cell changes. -/
theorem fsDither_threshold_and_diffusion (t : ℚ) (W H : Nat) (g0 : Nat → ℚ)
    (x y : Nat) (hx : x < W) (hy : y < H) :
    ((fsDither t W H g0).2 (y * W + x) =
        decide ((ditherAt t W H g0 y x).1 (y * W + x) < t))
  ∧ ((((bitmapRows W H (fsDither t W H g0).2).getD y []).getD (x / 8) 0).testBit
        (7 - x % 8)
      = decide ((ditherAt t W H g0 y x).1 (y * W + x) < t))
  ∧ (¬ 10 < |quantErr t ((ditherAt t W H g0 y x).1 (y * W + x))| →
        (fsStep t W H y x (ditherAt t W H g0 y x)).1 = (ditherAt t W H g0 y x).1)
  ∧ ∀ j, (fsStep t W H y x (ditherAt t W H g0 y x)).1 j =
      (ditherAt t W H g0 y x).1 j +
        (if 10 < |quantErr t ((ditherAt t W H g0 y x).1 (y * W + x))| then
            (if x + 1 < W ∧ j = y * W + x + 1 then
              quantErr t ((ditherAt t W H g0 y x).1 (y * W + x)) * 7 / 16 else 0)
          + (if y + 1 < H ∧ 0 < x ∧ j = y * W + x + W - 1 then
              quantErr t ((ditherAt t W H g0 y x).1 (y * W + x)) * 3 / 16 else 0)
          + (if y + 1 < H ∧ j = y * W + x + W then
              quantErr t ((ditherAt t W H g0 y x).1 (y * W + x)) * 5 / 16 else 0)
          + (if y + 1 < H ∧ x + 1 < W ∧ j = y * W + x + W + 1 then
              quantErr t ((ditherAt t W H g0 y x).1 (y * W + x)) * 1 / 16 else 0)
          else 0) := by
  refine ⟨fsDither_d_at t W H g0 x y hx hy, ?_, ?_,
    fun j => fsStep_g_apply t W H y x _ j hx⟩
  · rw [bitmapRows_getD W H _ y x hy hx, packByte_testBit W _ y x hx,
      fsDither_d_at t W H g0 x y hx hy]
  · intro h
    funext j
    rw [fsStep_g_apply t W H y x _ j hx, if_neg h, add_zero]

/-- C5 witness: 2×2 image, threshold 200, top-left pixel luminance 100:
the pixel is visited first (its adjusted luminance is its initial
luminance), is set to ink, and its bit in the dithered map is `true`. -/
theorem fsDither_threshold_and_diffusion_witness :
    (0 < 2)
  ∧ ((fsDither 200 2 2 (fun i => if i = 0 then (100 : ℚ) else 150)).2 (0 * 2 + 0) =
      decide ((ditherAt 200 2 2 (fun i => if i = 0 then (100 : ℚ) else 150) 0 0).1
        (0 * 2 + 0) < 200)) :=
  ⟨by decide,
    (fsDither_threshold_and_diffusion 200 2 2
      (fun i => if i = 0 then (100 : ℚ) else 150) 0 0 (by decide) (by decide)).1⟩

/-- C9: the bitmap encoder is deterministic — for (extensionally) equal
scaled pixel buffers and identical parameters, two runs produce
byte-identical bitmaps; there is no randomness anywhere in the grayscale,
dithering or packing passes. -/
theorem imageToEscPosBitmap_deterministic (srcW srcH maxW : Nat) (t : ℚ)
    (p1 p2 : Nat → ℚ × ℚ × ℚ) (hp : ∀ i, p1 i = p2 i) :
    imageToEscPosBitmap srcW srcH maxW p1 t = imageToEscPosBitmap srcW srcH maxW p2 t := by
  have hpp : p1 = p2 := funext hp
  rw [hpp]

/-- C9 witness: two runs on the same all-black 8×1 buffer agree. -/
theorem imageToEscPosBitmap_deterministic_witness :
    imageToEscPosBitmap 8 1 384 (fun _ => ((0 : ℚ), (0 : ℚ), (0 : ℚ))) 200 =
      imageToEscPosBitmap 8 1 384 (fun _ => ((0 : ℚ), (0 : ℚ), (0 : ℚ))) 200 :=
  imageToEscPosBitmap_deterministic 8 1 384 200 _ _ (fun _ => rfl)

end BtPrinter
